import Mathlib

/-!
Verification of the tunarr playout engine (`server/src/stream/VideoStream.ts`
and `server/src/stream/jellyfin/JellyfinPlayer.ts`) against its
natural-language specification.

The embedding is shallow: the stateful orchestration code of
`VideoStream.startStream` (redirect walking, bound unwinding, the offline and
skip-ahead policy, throttling) and of `JellyfinPlayer` (duration capping,
error-slate substitution, cleanup) is translated into pure Lean functions over
explicit state.  Machine numbers (JavaScript numbers holding millisecond
durations and timestamps) are modelled as `Int`; `Number.MAX_SAFE_INTEGER`
appears literally.  Collaborators that live outside the two source files
(the channel store, the program calculator, the playback cache, the throttle
predicate) are modelled from the spec and are marked as such in their doc
comments.
-/

set_option maxHeartbeats 1000000

namespace Tunarr

/-- `Number.MAX_SAFE_INTEGER`, the initial upper bound of the redirect
bound-unwinding loop in `VideoStream.startStream`. -/
def maxSafeInteger : Int := 9007199254740991

/-- The `type` tag of a stream lineup item / lineup program.  In the TypeScript
source this is the discriminant of the `StreamLineupItem` union; a `redirect`
item carries its target channel id. -/
inductive LineupItemType where
  | program
  | custom
  | offline
  | error
  | redirect (channel : String)
  deriving DecidableEq, Repr

/-- A stream lineup item (the shape shared by lineup programs and the Playable
Item handed to the player): type tag, optional title and error payload,
total duration, optional start offset, optional capped stream duration and
optional beginning offset, all in milliseconds. -/
structure StreamLineupItem where
  type : LineupItemType
  title : Option String := none
  error : Option String := none
  duration : Int
  start : Option Int := none
  streamDuration : Option Int := none
  beginningOffset : Option Int := none
  deriving DecidableEq, Repr

/-- Modelled from the spec: `createOfflineStreamLineupIteam` (sic) is declared
in `dao/derived_types/StreamLineup.ts`, which is not under `src/`.  Per the
spec's data model an offline filler item has the given duration, start offset
`0`, and no external backing. -/
def createOfflineStreamLineupIteam (duration : Int) : StreamLineupItem :=
  { type := .offline, duration := duration, start := some 0 }

/-- The result of `StreamProgramCalculator.getCurrentProgramAndTimeElapsed`:
the currently airing program, the elapsed time within it, and its slot
index. -/
structure ResolvedProgram where
  program : StreamLineupItem
  timeElapsed : Int
  programIndex : Int
  deriving DecidableEq, Repr

/-! ## Playback cache

Modelled from the spec: the Playback Cache (`ChannelCache`, not under `src/`)
keys entries by `(channel id, timestamp)`; a hit for the exact timestamp
short-circuits resolution.  Every function below works at one fixed request
timestamp, so entries are keyed by channel id alone; `recordPlayback`
overwrites by shadowing and `getCurrentLineupItem` returns the most recently
recorded item. -/

/-- The playback cache at one fixed timestamp: newest entries first. -/
abbrev PlaybackCache := List (String × StreamLineupItem)

/-- `channelCache.recordPlayback` at the fixed timestamp. -/
def recordPlayback (cache : PlaybackCache) (channelId : String)
    (item : StreamLineupItem) : PlaybackCache :=
  (channelId, item) :: cache

/-- `channelCache.getCurrentLineupItem` at the fixed timestamp: the most
recently recorded item for the channel, if any. -/
def getCurrentLineupItem : PlaybackCache → String → Option StreamLineupItem
  | [], _ => none
  | (k, v) :: rest, channelId =>
    if k = channelId then some v else getCurrentLineupItem rest channelId

/-- The set of channel ids recorded in a cache. -/
def cacheKeys (cache : PlaybackCache) : Finset String :=
  (cache.map Prod.fst).toFinset

theorem getCurrentLineupItem_record (cache : PlaybackCache) (channelId : String)
    (item : StreamLineupItem) :
    getCurrentLineupItem (recordPlayback cache channelId item) channelId = some item := by
  simp [getCurrentLineupItem, recordPlayback]

theorem getCurrentLineupItem_none_iff (cache : PlaybackCache) (channelId : String) :
    getCurrentLineupItem cache channelId = none ↔ channelId ∉ cacheKeys cache := by
  induction cache with
  | nil => simp [getCurrentLineupItem, cacheKeys]
  | cons p rest ih =>
    rcases p with ⟨k, v⟩
    by_cases h : k = channelId
    · subst h; simp [getCurrentLineupItem, cacheKeys]
    · simpa [getCurrentLineupItem, cacheKeys, h, Ne.symm h] using ih

theorem getCurrentLineupItem_mem (cache : PlaybackCache) (channelId : String)
    (item : StreamLineupItem)
    (h : getCurrentLineupItem cache channelId = some item) : (channelId, item) ∈ cache := by
  induction cache with
  | nil => simp [getCurrentLineupItem] at h
  | cons p rest ih =>
    rcases p with ⟨k, v⟩
    by_cases hp : k = channelId
    · subst hp
      simp [getCurrentLineupItem] at h
      simp [h]
    · simp [getCurrentLineupItem, hp] at h
      exact List.mem_cons_of_mem _ (ih h)

theorem cacheKeys_record (cache : PlaybackCache) (channelId : String)
    (item : StreamLineupItem) :
    cacheKeys (recordPlayback cache channelId item) = insert channelId (cacheKeys cache) := by
  simp [cacheKeys, recordPlayback]

/-! ## The bound-unwinding loop (`VideoStream.startStream`, lines 235-262)

After the redirect walk, `startStream` walks the `upperBounds` stack from the
deepest hop (index `redirectChannels.length - 1`) down to index `0`; at each
index it tightens the lineup item's `streamDuration` to
`min (bound + beginningOffset) (min upperBound streamDuration)` and records the
progressively bounded item for that hop's channel. -/

/-- One pass of the `for (let i = redirectChannels.length - 1; i >= 0; i--)`
loop: the counter argument `n` means indices `n-1, n-2, …, 0` remain to be
processed. -/
def unwindGo (o : Int) (rcs : List String) (ubs : List Int) :
    Nat → Int → StreamLineupItem → PlaybackCache → StreamLineupItem × PlaybackCache
  | 0, _, item, cache => (item, cache)
  | n + 1, upperBound, item, cache =>
    match ubs[n]? with
    | none => unwindGo o rcs ubs n upperBound item
        (recordPlayback cache (rcs.getD n "") item)
    | some b =>
      let nextBound := b + o
      let prevBound := match item.streamDuration with
        | none => upperBound
        | some sd => min upperBound sd
      let newDuration := min nextBound prevBound
      let item' := { item with streamDuration := some newDuration }
      unwindGo o rcs ubs n newDuration item'
        (recordPlayback cache (rcs.getD n "") item')

/-- The whole unwinding loop: `upperBound` starts at `Number.MAX_SAFE_INTEGER`
and `beginningOffset` is read once from the final lineup item (`?? 0`). -/
def unwindBounds (rcs : List String) (ubs : List Int) (item : StreamLineupItem)
    (cache : PlaybackCache) : StreamLineupItem × PlaybackCache :=
  unwindGo (item.beginningOffset.getD 0) rcs ubs rcs.length maxSafeInteger item cache

theorem unwindGo_preserves (o : Int) (rcs : List String) (ubs : List Int) :
    ∀ (n : Nat) (ub : Int) (item : StreamLineupItem) (cache : PlaybackCache),
      (unwindGo o rcs ubs n ub item cache).1.type = item.type ∧
      (unwindGo o rcs ubs n ub item cache).1.error = item.error := by
  intro n
  induction n with
  | zero => intro ub item cache; exact ⟨rfl, rfl⟩
  | succ n ih =>
    intro ub item cache
    simp only [unwindGo]
    split
    · exact ih ..
    · exact ih ..

theorem unwindGo_sync (o : Int) (rcs : List String) (ubs : List Int) :
    ∀ (n : Nat), n ≤ ubs.length →
      ∀ (ub : Int) (item : StreamLineupItem) (cache : PlaybackCache),
      item.streamDuration = some ub →
      ∃ m, (unwindGo o rcs ubs n ub item cache).1.streamDuration = some m ∧
        m ∈ ub :: (ubs.take n).map (fun b => b + o) ∧
        ∀ x ∈ ub :: (ubs.take n).map (fun b => b + o), m ≤ x := by
  intro n
  induction n with
  | zero =>
    intro _ ub item cache hsd
    exact ⟨ub, hsd, by simp, by simp⟩
  | succ n ih =>
    intro hn ub item cache hsd
    have hlt : n < ubs.length := Nat.lt_of_succ_le hn
    obtain ⟨b, hget⟩ : ∃ b, ubs[n]? = some b := ⟨ubs[n], List.getElem?_eq_getElem hlt⟩
    simp only [unwindGo, hget, hsd]
    have hmin : min ub ub = ub := min_self ub
    rw [hmin]
    obtain ⟨m, hm, hmem, hminp⟩ :=
      ih (Nat.le_of_succ_le hn) (min (b + o) ub)
        { item with streamDuration := some (min (b + o) ub) }
        (recordPlayback cache (rcs.getD n "")
          { item with streamDuration := some (min (b + o) ub) }) rfl
    have hmle : m ≤ min (b + o) ub := hminp _ (List.mem_cons_self _ _)
    refine ⟨m, hm, ?_, ?_⟩
    · rw [List.take_succ, hget, Option.toList_some, List.map_append]
      rcases List.mem_cons.mp hmem with h | h
      · rcases min_choice (b + o) ub with hc | hc
        · refine List.mem_cons_of_mem _ (List.mem_append.mpr (Or.inr ?_))
          simp [h, hc]
        · exact List.mem_cons.mpr (Or.inl (h.trans hc))
      · exact List.mem_cons_of_mem _ (List.mem_append.mpr (Or.inl h))
    · intro x hx
      rw [List.take_succ, hget, Option.toList_some, List.map_append] at hx
      rcases List.mem_cons.mp hx with hx | hx
      · subst hx
        exact le_trans hmle (min_le_right _ _)
      · rcases List.mem_append.mp hx with hx | hx
        · exact hminp x (List.mem_cons_of_mem _ hx)
        · have hxe : x = b + o := by simpa using hx
          subst hxe
          exact le_trans hmle (min_le_left _ _)

/-- The candidate set of the unwinding loop: every hop bound shifted by the
beginning offset, together with the final item's own stream duration when
present. -/
def unwindCandidates (ubs : List Int) (o : Int) (d : Option Int) : List Int :=
  ubs.map (fun b => b + o) ++ (match d with | none => [] | some dd => [dd])

theorem unwindBounds_min (rcs : List String) (ubs : List Int) (item : StreamLineupItem)
    (cache : PlaybackCache) (o : Int)
    (ho : item.beginningOffset.getD 0 = o)
    (hlen : rcs.length = ubs.length) (hne : ubs ≠ [])
    (hmax : ∀ b ∈ ubs, b + o ≤ maxSafeInteger)
    (hdm : ∀ d, item.streamDuration = some d → d ≤ maxSafeInteger) :
    ∃ m, (unwindBounds rcs ubs item cache).1.streamDuration = some m ∧
      m ∈ unwindCandidates ubs o item.streamDuration ∧
      ∀ x ∈ unwindCandidates ubs o item.streamDuration, m ≤ x := by
  obtain ⟨n, hnlen⟩ : ∃ n, ubs.length = n + 1 := by
    rcases Nat.exists_eq_succ_of_ne_zero (fun h0 => hne (List.length_eq_zero.mp h0)) with ⟨n, hn⟩
    exact ⟨n, hn⟩
  have hlt : n < ubs.length := by omega
  obtain ⟨b, hget⟩ : ∃ b, ubs[n]? = some b := ⟨ubs[n], List.getElem?_eq_getElem hlt⟩
  have hbeq : ubs[n] = b := by
    have h1 : ubs[n]? = some ubs[n] := List.getElem?_eq_getElem hlt
    exact Option.some_inj.mp (h1.symm.trans hget)
  have hbmem : b ∈ ubs := by
    rw [← hbeq]
    exact List.getElem_mem hlt
  have hfull : ubs.take (n + 1) = ubs := by
    rw [← hnlen]; exact List.take_length ubs
  have htake : ubs = ubs.take n ++ [b] := by
    conv_lhs => rw [← hfull]
    rw [List.take_succ, hget]
    rfl
  unfold unwindBounds
  rw [ho, hlen, hnlen]
  simp only [unwindGo, hget]
  cases hsd : item.streamDuration with
  | none =>
    have hnew : min (b + o) maxSafeInteger = b + o :=
      min_eq_left (hmax b hbmem)
    simp only [hsd, hnew]
    obtain ⟨m, hm, hmem, hminp⟩ :=
      unwindGo_sync o rcs ubs n (by omega) (b + o)
        { item with streamDuration := some (b + o) }
        (recordPlayback cache (rcs.getD n "")
          { item with streamDuration := some (b + o) }) rfl
    have hcand : unwindCandidates ubs o none = List.map (fun b => b + o) ubs := by
      simp [unwindCandidates]
    refine ⟨m, hm, ?_, ?_⟩
    · rw [hcand, htake, List.map_append]
      rcases List.mem_cons.mp hmem with h | h
      · refine List.mem_append.mpr (Or.inr ?_)
        simp [h]
      · exact List.mem_append.mpr (Or.inl h)
    · intro x hx
      rw [hcand, htake, List.map_append] at hx
      rcases List.mem_append.mp hx with hx | hx
      · exact hminp x (List.mem_cons_of_mem _ hx)
      · have hxe : x = b + o := by simpa using hx
        subst hxe
        exact hminp _ (List.mem_cons_self _ _)
  | some d =>
    have hdmax : d ≤ maxSafeInteger := hdm d hsd
    have hcap : min maxSafeInteger d = d := min_eq_right hdmax
    simp only [hsd, hcap]
    obtain ⟨m, hm, hmem, hminp⟩ :=
      unwindGo_sync o rcs ubs n (by omega) (min (b + o) d)
        { item with streamDuration := some (min (b + o) d) }
        (recordPlayback cache (rcs.getD n "")
          { item with streamDuration := some (min (b + o) d) }) rfl
    have hmle : m ≤ min (b + o) d := hminp _ (List.mem_cons_self _ _)
    have hcand : unwindCandidates ubs o (some d) = List.map (fun b => b + o) ubs ++ [d] := rfl
    refine ⟨m, hm, ?_, ?_⟩
    · rw [hcand, htake, List.map_append]
      rcases List.mem_cons.mp hmem with h | h
      · rcases min_choice (b + o) d with hc | hc
        · refine List.mem_append.mpr (Or.inl (List.mem_append.mpr (Or.inr ?_)))
          simp [h, hc]
        · refine List.mem_append.mpr (Or.inr ?_)
          simp [h, hc]
      · exact List.mem_append.mpr (Or.inl (List.mem_append.mpr (Or.inl h)))
    · intro x hx
      rw [hcand, htake, List.map_append] at hx
      rcases List.mem_append.mp hx with hx | hx
      · rcases List.mem_append.mp hx with hx | hx
        · exact hminp x (List.mem_cons_of_mem _ hx)
        · have hxe : x = b + o := by simpa using hx
          subst hxe
          exact le_trans hmle (min_le_left _ _)
      · have hxe : x = d := by simpa using hx
        subst hxe
        exact le_trans hmle (min_le_right _ _)

/-- An item whose `beginningOffset` is `5` ms and whose own stream duration is
absent, used to exhibit that the unwound duration can exceed a hop bound. -/
def offsetItem : StreamLineupItem :=
  { type := .program, duration := 1200000, start := some 0, beginningOffset := some 5 }

/-- C1 counterexample: with one recorded hop bound of `10` ms and a beginning
offset of `5` ms, the unwinding loop of `VideoStream.startStream` sets the
final stream duration to `10 + 5 = 15` ms, which is strictly greater than the
hop's remaining bound `10`; the claim's consequence "the final duration is
less than or equal to every hop's remaining bound" is therefore false. -/
theorem c1_counterexample_offset_exceeds_hop_bound :
    (unwindBounds ["chanA"] [10] offsetItem []).1.streamDuration = some 15 ∧
    ¬ (15 : Int) ≤ 10 := by
  constructor
  · rfl
  · decide

/-- C1 (amended): the unwinding loop in `VideoStream.startStream` (lines
235-262) sets the final Playable Item's stream duration to the minimum over
all hops of `bound + beginningOffset`, further capped by the item's own stream
duration `d` when present; consequently the final duration is less than or
equal to every hop's remaining bound *plus the beginning offset* (when the
beginning offset is `0`, this is every hop's remaining bound), and less than
or equal to `d` when `d` is present.  The hypotheses state that the bounds
stack is non-empty and parallel to the redirect-channel stack (as
`startStream` pushes onto both in lockstep) and that all values are within
JavaScript's safe-integer range. -/
theorem c1_redirect_bound_unwinding (rcs : List String) (ubs : List Int)
    (item : StreamLineupItem) (cache : PlaybackCache) (o : Int)
    (ho : item.beginningOffset.getD 0 = o)
    (hlen : rcs.length = ubs.length) (hne : ubs ≠ [])
    (hmax : ∀ b ∈ ubs, b + o ≤ maxSafeInteger)
    (hdm : ∀ d, item.streamDuration = some d → d ≤ maxSafeInteger) :
    ∃ m, (unwindBounds rcs ubs item cache).1.streamDuration = some m ∧
      m ∈ unwindCandidates ubs o item.streamDuration ∧
      (∀ x ∈ unwindCandidates ubs o item.streamDuration, m ≤ x) ∧
      (∀ b ∈ ubs, m ≤ b + o) ∧
      (∀ d, item.streamDuration = some d → m ≤ d) := by
  obtain ⟨m, h1, h2, h3⟩ := unwindBounds_min rcs ubs item cache o ho hlen hne hmax hdm
  refine ⟨m, h1, h2, h3, ?_, ?_⟩
  · intro b hb
    apply h3
    show b + o ∈ List.map (fun b => b + o) ubs ++ _
    exact List.mem_append.mpr (Or.inl (List.mem_map_of_mem _ hb))
  · intro d hd
    apply h3
    rw [hd]
    show d ∈ List.map (fun b => b + o) ubs ++ [d]
    exact List.mem_append.mpr (Or.inr (List.mem_singleton.mpr rfl))

/-- The final item of the C1 scenario: a 20-minute content item. -/
def twentyMinuteItem : StreamLineupItem :=
  { type := .program, duration := 1200000, start := some 0,
    streamDuration := some 1200000 }

/-- C1 witness: the one-hop scenario in which the redirect slot has 2 minutes
(`120000` ms) remaining and the target content item is 20 minutes
(`1200000` ms) long; the final stream duration equals 2 minutes. -/
theorem c1_witness_two_minute_scenario :
    (∃ m, (unwindBounds ["chanB"] [120000] twentyMinuteItem []).1.streamDuration = some m ∧
      m ∈ unwindCandidates [120000] 0 twentyMinuteItem.streamDuration ∧
      (∀ x ∈ unwindCandidates [120000] 0 twentyMinuteItem.streamDuration, m ≤ x) ∧
      (∀ b ∈ ([120000] : List Int), m ≤ b + 0) ∧
      (∀ d, twentyMinuteItem.streamDuration = some d → m ≤ d)) ∧
    (unwindBounds ["chanB"] [120000] twentyMinuteItem []).1.streamDuration = some 120000 :=
  ⟨c1_redirect_bound_unwinding ["chanB"] [120000] twentyMinuteItem [] 0 rfl rfl
      (by decide) (by decide)
      (fun d hd => by
        simp only [twentyMinuteItem, Option.some.injEq] at hd
        subst hd
        decide),
    by rfl⟩

/-! ## The offline policy and skip-ahead branch (`startStream`, lines 181-233)

When the redirect walk ended with a direct resolution (no cached lineup item),
`startStream` applies an `if / else if` ladder to the resolved program: a
single-slot offline lineup is replaced by a year-long offline item; otherwise,
when skipping is allowed, an offline program with almost no remaining time
triggers a recursive `startStream` call one tick past the end of the slot,
with `allowSkip` hard-coded to `false`. -/

/-- The three outcomes of the ladder. -/
inductive OfflineDecision where
  | longOffline (cp : ResolvedProgram)
  | skip (dt : Int)
  | keep (cp : ResolvedProgram)
  deriving DecidableEq, Repr

/-- Lines 190-217 of `startStream`.  `slk` stands for `constants.SLACK`, a
shared constant whose definition is not under `src/`, so it is kept
symbolic. -/
def applyOfflinePolicy (lineupLen : Nat) (allowSkip : Bool) (slk : Int)
    (cp : ResolvedProgram) : OfflineDecision :=
  if cp.program.type = .offline ∧ lineupLen = 1 ∧ cp.programIndex ≠ -1 then
    .longOffline
      { cp with program := createOfflineStreamLineupIteam (365 * 24 * 60 * 60 * 1000) }
  else if allowSkip ∧ cp.program.type = .offline ∧
      cp.program.duration - cp.timeElapsed ≤ slk + 1 then
    .skip (cp.program.duration - cp.timeElapsed)
  else
    .keep cp

theorem skip_allowSkip {lineupLen : Nat} {allowSkip : Bool} {slk : Int}
    {cp : ResolvedProgram} {dt : Int}
    (h : applyOfflinePolicy lineupLen allowSkip slk cp = .skip dt) :
    allowSkip = true ∧ cp.program.type = .offline ∧
    dt = cp.program.duration - cp.timeElapsed ∧ dt ≤ slk + 1 := by
  unfold applyOfflinePolicy at h
  by_cases h1 : cp.program.type = .offline ∧ lineupLen = 1 ∧ cp.programIndex ≠ -1
  · rw [if_pos h1] at h
    exact absurd h (by simp)
  · rw [if_neg h1] at h
    by_cases h2 : (allowSkip = true) ∧ cp.program.type = .offline ∧
        cp.program.duration - cp.timeElapsed ≤ slk + 1
    · rw [if_pos h2] at h
      injection h with hdt
      rcases h2 with ⟨ha, hb, hc⟩
      exact ⟨ha, hb, hdt.symm, by omega⟩
    · rw [if_neg h2] at h
      exact absurd h (by simp)

/-- C3: when the direct resolution is an `offline` program, the lineup has
exactly one slot, and the program index is a real slot index (a direct
resolution always carries one, per the lineup-resolver contract), the
orchestrator replaces the program with a synthetic offline item of one year
(`365 * 24 * 60 * 60 * 1000 = 31536000000` ms), regardless of the slot's
configured duration, and this duration is at least one day (`86400000` ms). -/
theorem c3_single_offline_slot_year_duration (lineupLen : Nat) (allowSkip : Bool)
    (slk : Int) (cp : ResolvedProgram)
    (hoff : cp.program.type = .offline)
    (hlen : lineupLen = 1)
    (hidx : cp.programIndex ≠ -1) :
    ∃ cp', applyOfflinePolicy lineupLen allowSkip slk cp = .longOffline cp' ∧
      cp'.program = createOfflineStreamLineupIteam (365 * 24 * 60 * 60 * 1000) ∧
      cp'.program.duration = 31536000000 ∧
      (86400000 : Int) ≤ cp'.program.duration := by
  refine ⟨{ cp with
      program := createOfflineStreamLineupIteam (365 * 24 * 60 * 60 * 1000) },
    ?_, rfl, ?_, ?_⟩
  · unfold applyOfflinePolicy
    rw [if_pos ⟨hoff, hlen, hidx⟩]
  · show (365 * 24 * 60 * 60 * 1000 : Int) = 31536000000
    norm_num
  · show (86400000 : Int) ≤ 365 * 24 * 60 * 60 * 1000
    norm_num

/-- A resolved single-slot offline program with a short configured duration. -/
def offlineSlotProgram : ResolvedProgram :=
  { program := { type := .offline, duration := 5000, start := some 0 },
    timeElapsed := 0, programIndex := 0 }

/-- C3 witness: a concrete single-slot offline lineup whose configured slot
duration is only 5 seconds still resolves to the year-long offline item. -/
theorem c3_witness_short_slot :
    (offlineSlotProgram.program.type = .offline ∧ (1 : Nat) = 1 ∧
      offlineSlotProgram.programIndex ≠ -1) ∧
    (∃ cp', applyOfflinePolicy 1 true 9999 offlineSlotProgram = .longOffline cp' ∧
      cp'.program = createOfflineStreamLineupIteam (365 * 24 * 60 * 60 * 1000) ∧
      cp'.program.duration = 31536000000 ∧
      (86400000 : Int) ≤ cp'.program.duration) :=
  ⟨by decide,
    c3_single_offline_slot_year_duration 1 true 9999 offlineSlotProgram rfl rfl (by decide)⟩

/-- The skip decision for one resolution: `some ts2` when the skip-ahead
branch of `startStream` fires with recursion target timestamp `ts2`, `none`
otherwise. -/
def skipTarget (lineupLen : Nat) (slk : Int) (allowSkip : Bool) (ts : Int) :
    Option ResolvedProgram → Option Int
  | none => none
  | some cp =>
    match applyOfflinePolicy lineupLen allowSkip slk cp with
    | .skip dt => some (ts + dt + 1)
    | _ => none

/-- The skip-ahead recursion of `startStream` as a trace of the timestamps it
queries.  `resolveAt` is the direct resolution of the channel at each
timestamp; `fuel` bounds the modelled recursion depth (the code has no such
bound; the theorems show depth `2` always suffices because the recursive call
at line 216 passes `allowSkip = false`).  `none` means the fuel ran out. -/
def skipRun (resolveAt : Int → Option ResolvedProgram) (lineupLen : Nat) (slk : Int) :
    Nat → Bool → Int → Option (List Int)
  | fuel, allowSkip, ts =>
    match skipTarget lineupLen slk allowSkip ts (resolveAt ts) with
    | none => some [ts]
    | some ts2 =>
      match fuel with
      | 0 => none
      | f + 1 => (skipRun resolveAt lineupLen slk f false ts2).map (ts :: ·)

theorem skipTarget_false (lineupLen : Nat) (slk : Int) (ts : Int)
    (cp? : Option ResolvedProgram) :
    skipTarget lineupLen slk false ts cp? = none := by
  cases cp? with
  | none => rfl
  | some cp =>
    cases hpol : applyOfflinePolicy lineupLen false slk cp with
    | skip dt => exact absurd (skip_allowSkip hpol).1 (by simp)
    | longOffline c => simp only [skipTarget, hpol]
    | keep c => simp only [skipTarget, hpol]

theorem skipRun_false (resolveAt : Int → Option ResolvedProgram) (lineupLen : Nat)
    (slk : Int) (fuel : Nat) (ts : Int) :
    skipRun resolveAt lineupLen slk fuel false ts = some [ts] := by
  unfold skipRun
  rw [skipTarget_false]

/-- C4: whenever the skip-ahead branch fires (the policy returns `.skip dt`
with `allowSkip = true`), the recursive `startStream` call targets the
timestamp `ts + dt + 1` with `dt = duration - timeElapsed ≥ 0` (the resolver
guarantees `timeElapsed ≤ duration`), so the queried timestamp strictly
increases and the recursion terminates: with any fuel at least `2` the whole
trace is exactly `[ts, ts + dt + 1]`, a strictly increasing list. -/
theorem c4_skip_ahead_strictly_advances
    (resolveAt : Int → Option ResolvedProgram) (lineupLen : Nat) (slk ts dt : Int)
    (cp : ResolvedProgram)
    (hres : resolveAt ts = some cp)
    (hte : cp.timeElapsed ≤ cp.program.duration)
    (hskip : applyOfflinePolicy lineupLen true slk cp = .skip dt) :
    dt = cp.program.duration - cp.timeElapsed ∧ 0 ≤ dt ∧ dt ≤ slk + 1 ∧
    ts < ts + dt + 1 ∧
    (∀ fuel, 1 ≤ fuel →
      skipRun resolveAt lineupLen slk fuel true ts = some [ts, ts + dt + 1]) ∧
    List.Chain' (fun a b => a < b) [ts, ts + dt + 1] := by
  obtain ⟨-, -, hdt, hle⟩ := skip_allowSkip hskip
  have h0 : 0 ≤ dt := by omega
  refine ⟨hdt, h0, hle, by omega, ?_, ?_⟩
  · intro fuel hfuel
    obtain ⟨f, rfl⟩ : ∃ f, fuel = f + 1 := ⟨fuel - 1, by omega⟩
    have hstep : skipTarget lineupLen slk true ts (resolveAt ts) = some (ts + dt + 1) := by
      rw [hres]
      simp only [skipTarget, hskip]
    unfold skipRun
    rw [hstep]
    show (skipRun resolveAt lineupLen slk f false (ts + dt + 1)).map
        (fun x => ts :: x) = some [ts, ts + dt + 1]
    rw [skipRun_false]
    rfl
  · simp only [List.chain'_cons, List.chain'_singleton, and_true]
    omega

/-- The single resolved program of the C4 witness: an offline slot with
5000 ms configured duration, no time elapsed. -/
def briefOfflineProgram : ResolvedProgram :=
  { program := { type := .offline, duration := 5000, start := some 0 },
    timeElapsed := 0, programIndex := 0 }

/-- A channel that is offline for 5 seconds at timestamp 0 and unscheduled
afterwards, for the C4 witness. -/
def briefOfflineResolver : Int → Option ResolvedProgram := fun t =>
  if t = 0 then some briefOfflineProgram else none

/-- C4 witness: at timestamp `0` the offline slot has 5000 ms remaining, which
is within `SLACK + 1 = 10000` (taking `SLACK = 9999`), so the orchestrator
skips exactly once, to timestamp `5001`. -/
theorem c4_witness_brief_offline :
    (briefOfflineResolver 0 = some briefOfflineProgram) ∧
    ((5000 : Int) = 5000 - 0 ∧ (0 : Int) ≤ 5000 ∧ (5000 : Int) ≤ 9999 + 1 ∧
      (0 : Int) < 0 + 5000 + 1 ∧
      (∀ fuel, 1 ≤ fuel →
        skipRun briefOfflineResolver 2 9999 fuel true 0 = some [0, 0 + 5000 + 1]) ∧
      List.Chain' (fun a b => a < b) [(0 : Int), 0 + 5000 + 1]) := by
  have happ := c4_skip_ahead_strictly_advances briefOfflineResolver 2 9999 0 5000
    briefOfflineProgram (by decide) (by decide) (by decide)
  exact ⟨by decide, happ⟩

/-- C10: the recursive `startStream` call in the skip-ahead branch always
passes `allowSkip = false`, so for any single external request at most one
skip-ahead hop occurs, independent of the lineup's contents and of the
timestamp arithmetic: the queried-timestamp trace always has length at most
`2`, and fuel `1` already prevents fuel exhaustion. -/
theorem c10_at_most_one_skip_hop
    (resolveAt : Int → Option ResolvedProgram) (lineupLen : Nat) (slk : Int)
    (fuel : Nat) (allowSkip : Bool) (ts : Int)
    (hfuel : 1 ≤ fuel) :
    ∃ l, skipRun resolveAt lineupLen slk fuel allowSkip ts = some l ∧ l.length ≤ 2 := by
  obtain ⟨f, rfl⟩ : ∃ f, fuel = f + 1 := ⟨fuel - 1, by omega⟩
  unfold skipRun
  cases hstep : skipTarget lineupLen slk allowSkip ts (resolveAt ts) with
  | none => exact ⟨[ts], rfl, by simp⟩
  | some ts2 =>
    refine ⟨[ts, ts2], ?_, by simp⟩
    show (skipRun resolveAt lineupLen slk f false ts2).map
        (fun x => ts :: x) = some [ts, ts2]
    rw [skipRun_false]
    rfl

/-- C10 witness: a concrete run with fuel `1`. -/
theorem c10_witness_brief_offline :
    (1 : Nat) ≤ 1 ∧
    ∃ l, skipRun briefOfflineResolver 2 9999 1 true 0 = some l ∧ l.length ≤ 2 :=
  ⟨le_refl 1, c10_at_most_one_skip_hop briefOfflineResolver 2 9999 1 true 0 (le_refl 1)⟩

/-! ## The throttle gate (`startStream`, lines 291-298)

`wereThereTooManyAttempts` lives in `StreamThrottler.ts`, which is not under
`src/`; it is taken as an arbitrary boolean predicate parameter, which is all
lines 291-298 depend on. -/

/-- The synthetic throttled item built at lines 292-297. -/
def throttledErrorItem : StreamLineupItem :=
  { type := .error, error := some "Too many attempts, throttling",
    duration := 60000, start := some 0 }

/-- Lines 291-298 of `startStream`: the item handed to the player context. -/
def applyThrottle (tooMany : Nat → StreamLineupItem → Bool) (session : Nat)
    (item : StreamLineupItem) : StreamLineupItem :=
  if tooMany session item then throttledErrorItem else item

/-- C5: whenever the Throttle Guard reports `true` for the session and the
resolved lineup item, the item handed to the Player Supervisor is the
synthetic `error` item with the throttling message, duration `60000` ms and
start `0`, whatever the underlying item was (in particular even if it is a
content item that would have resolved successfully). -/
theorem c5_throttle_replaces_item (tooMany : Nat → StreamLineupItem → Bool)
    (session : Nat) (item : StreamLineupItem)
    (h : tooMany session item = true) :
    applyThrottle tooMany session item = throttledErrorItem ∧
    (applyThrottle tooMany session item).type = .error ∧
    (applyThrottle tooMany session item).error =
      some "Too many attempts, throttling" ∧
    (applyThrottle tooMany session item).duration = 60000 ∧
    (applyThrottle tooMany session item).start = some 0 := by
  have he : applyThrottle tooMany session item = throttledErrorItem := by
    simp [applyThrottle, h]
  exact ⟨he, by rw [he]; rfl, by rw [he]; rfl, by rw [he]; rfl, by rw [he]; rfl⟩

/-- A throttle predicate that always fires, and a healthy content item. -/
def alwaysThrottle : Nat → StreamLineupItem → Bool := fun _ _ => true

/-- A content item that would resolve successfully. -/
def healthyContentItem : StreamLineupItem :=
  { type := .program, duration := 1800000, start := some 0,
    streamDuration := some 1800000 }

/-- C5 witness: with a throttle predicate reporting `true`, a healthy content
item is replaced by the throttled `error` item. -/
theorem c5_witness_healthy_item_throttled :
    alwaysThrottle 0 healthyContentItem = true ∧
    (applyThrottle alwaysThrottle 0 healthyContentItem = throttledErrorItem ∧
      (applyThrottle alwaysThrottle 0 healthyContentItem).type = .error ∧
      (applyThrottle alwaysThrottle 0 healthyContentItem).error =
        some "Too many attempts, throttling" ∧
      (applyThrottle alwaysThrottle 0 healthyContentItem).duration = 60000 ∧
      (applyThrottle alwaysThrottle 0 healthyContentItem).start = some 0) :=
  ⟨rfl, c5_throttle_replaces_item alwaysThrottle 0 healthyContentItem rfl⟩

/-! ## `JellyfinPlayer` (`server/src/stream/jellyfin/JellyfinPlayer.ts`)

The player's `play` method is embedded as a pure function of the responses of
its collaborators (media-source lookup, stream negotiator, ffmpeg spawn,
settings), producing either a thrown error, an undefined return, or a play
state; the subprocess `error` handler installed at lines 156-188 is embedded
as a transition `onFfmpegError` on that state. -/

/-- Stream metadata returned by the Jellyfin stream negotiator
(`JellyfinStreamDetails.getStream`); only the field `play` reads is
modelled. -/
structure StreamDetails where
  duration : Option Int := none
  deriving DecidableEq, Repr

/-- The negotiator's successful result: a stream URL and optional details. -/
structure JellyfinStream where
  streamUrl : String := ""
  streamDetails : Option StreamDetails := none
  deriving DecidableEq, Repr

/-- The collaborator responses observed by one `play` call: whether the
media-source lookup finds the server, what the stream negotiator returns
(`none` models its `null` failure signal), whether `ffmpeg.spawnStream`
yields a process, and whether play-status updating is enabled. -/
structure JellyfinCollaborators where
  serverFound : Bool
  getStream : Option JellyfinStream
  spawnOk : Bool
  updatePlayStatus : Bool
  deriving DecidableEq, Repr

/-- Events on the output sink (the `outStream` argument of `play`). -/
inductive SinkEvent where
  | pipeMain (endFlag : Bool)
  | unpipeMain
  | pipeErrorSlate (durationMs : Int)
  deriving DecidableEq, Repr

/-- The state reached by a `play` call that returned an emitter. -/
structure PlayState where
  emitterId : Nat
  sink : List SinkEvent
  seekSeconds : Int
  durationSecondsArg : Option Int
  streamDetails : Option StreamDetails
  taskStarted : Bool
  deriving DecidableEq, Repr

/-- The observable outcome of `play`: a thrown error, an undefined return
(nothing piped), or an emitter with the reached state. -/
inductive PlayOutcome where
  | threw (msg : String)
  | noEmitter (sink : List SinkEvent)
  | ok (ps : PlayState)
  deriving DecidableEq, Repr

/-- Modelled from the spec: `isContentBackedLineupIteam` (sic) is declared in
`dao/derived_types/StreamLineup.ts`, which is not under `src/`; per the spec a
content-backed item is one backed by an external media source, i.e. a
`program` item. -/
def isContentBackedLineupIteam (item : StreamLineupItem) : Bool :=
  decide (item.type = LineupItemType.program)

/-- Lines 82-90 of `play`: the duration cap handed to the transcoder, in
seconds, present exactly when the item has a stream duration and
`(start ?? 0) + streamDuration + SLACK < duration`. -/
def effectiveStreamDuration (slk : Int) (item : StreamLineupItem) : Option Int :=
  match item.streamDuration with
  | some sd =>
    if item.start.getD 0 + sd + slk < item.duration then some (sd / 1000) else none
  | none => none

/-- Lines 98-145 of `play`, after the stream negotiation succeeded: the
`killed` early return, the `streamDetails.duration := lineupItem.streamDuration`
overwrite, the spawn failure throw, the `pipe(outStream, { end: false })`, and
the optional play-status task. -/
def jellyfinSpawn (slk : Int) (item : StreamLineupItem) (env : JellyfinCollaborators)
    (killed : Bool) (freshEmitter : Nat) (stream : JellyfinStream) : PlayOutcome :=
  if killed then .noEmitter []
  else if ¬ env.spawnOk then .threw "Unable to spawn ffmpeg"
  else .ok {
    emitterId := freshEmitter,
    sink := [.pipeMain false],
    seekSeconds := item.start.getD 0 / 1000,
    durationSecondsArg := effectiveStreamDuration slk item,
    streamDetails := stream.streamDetails.map
      (fun sd => { sd with duration := item.streamDuration }),
    taskStarted := env.updatePlayStatus }

/-- `JellyfinPlayer.play` (lines 47-145): the content-backed check at line 51,
the server lookup at lines 60-69, the duration-cap computation, the stream
negotiation at lines 92-96 (returning undefined, with nothing piped, on
failure), then `jellyfinSpawn`. -/
def jellyfinPlay (slk : Int) (item : StreamLineupItem) (env : JellyfinCollaborators)
    (killed : Bool) (freshEmitter : Nat) : PlayOutcome :=
  if ¬ isContentBackedLineupIteam item then
    .threw "Lineup item is not backed by Plex"
  else if ¬ env.serverFound then
    .threw "Unable to find server specified by program"
  else
    match env.getStream with
    | none => .noEmitter []
    | some stream => jellyfinSpawn slk item env killed freshEmitter stream

/-- The state produced by the subprocess `error` handler. -/
structure ErrorSubstitution where
  emitterId : Nat
  sink : List SinkEvent
  oldListenersRemoved : Bool
  slateDurationMs : Int
  deriving DecidableEq, Repr

/-- The subprocess `error` handler of `play` (lines 156-188): unpipe the
failed process from the sink, remove the old process's listeners, spawn
`spawnError` with duration `min(streamDetails?.duration ?? 30000, 60000)`,
pipe it into the same sink, and keep forwarding `end`/`close`/`error` through
the emitter captured at line 107. -/
def onFfmpegError (ps : PlayState) : ErrorSubstitution :=
  let slateDuration :=
    min ((ps.streamDetails.bind (fun sd => sd.duration)).getD 30000) 60000
  { emitterId := ps.emitterId,
    sink := ps.sink ++ [.unpipeMain, .pipeErrorSlate slateDuration],
    oldListenersRemoved := true,
    slateDurationMs := slateDuration }

/-- Lines 331-363 of `startStream`: the request-level result is an error only
when `play` throws; otherwise a success result carrying the output stream is
returned, whether or not `play` returned an emitter. -/
def startStreamOutcome : PlayOutcome → Bool
  | .threw _ => false
  | .noEmitter _ => true
  | .ok _ => true

/-- What reached the output sink for each play outcome. -/
def sinkOf : PlayOutcome → List SinkEvent
  | .threw _ => []
  | .noEmitter s => s
  | .ok ps => ps.sink

theorem jellyfinPlay_ok_inv (slk : Int) (item : StreamLineupItem)
    (env : JellyfinCollaborators) (killed : Bool) (fe : Nat) (ps : PlayState)
    (h : jellyfinPlay slk item env killed fe = .ok ps) :
    isContentBackedLineupIteam item = true ∧ env.serverFound = true ∧
    killed = false ∧ env.spawnOk = true ∧
    ∃ stream, env.getStream = some stream ∧
      ps = { emitterId := fe, sink := [.pipeMain false],
             seekSeconds := item.start.getD 0 / 1000,
             durationSecondsArg := effectiveStreamDuration slk item,
             streamDetails := stream.streamDetails.map
               (fun sd => { sd with duration := item.streamDuration }),
             taskStarted := env.updatePlayStatus } := by
  unfold jellyfinPlay at h
  split_ifs at h with h1 h2
  split at h
  · exact absurd h (by simp)
  · rename_i stream hgs
    unfold jellyfinSpawn at h
    split_ifs at h with h3 h4
    injection h with hps
    exact ⟨h1, h2, by simpa using h3, h4, stream, hgs, hps.symm⟩

theorem effectiveStreamDuration_isSome_iff (slk : Int) (item : StreamLineupItem) :
    (∃ v, effectiveStreamDuration slk item = some v) ↔
    (∃ sd, item.streamDuration = some sd ∧
      item.start.getD 0 + sd + slk < item.duration) := by
  cases hsd : item.streamDuration with
  | none => simp [effectiveStreamDuration, hsd]
  | some sd =>
    by_cases hc : item.start.getD 0 + sd + slk < item.duration
    · simp [effectiveStreamDuration, hsd, hc]
    · simp [effectiveStreamDuration, hsd, hc]

theorem effectiveStreamDuration_eq_some (slk : Int) (item : StreamLineupItem)
    (sd : Int) (hsd : item.streamDuration = some sd)
    (hc : item.start.getD 0 + sd + slk < item.duration) :
    effectiveStreamDuration slk item = some (sd / 1000) := by
  simp [effectiveStreamDuration, hsd, hc]

/-- C7: in `JellyfinPlayer.play`, for every content-backed lineup item whose
play succeeds, the duration cap passed to the transcoder is present if and
only if the item has a stream duration `sd` with
`(start ?? 0) + sd + SLACK < duration`; when present it is `sd / 1000`
seconds, and otherwise no duration argument is passed (the subprocess runs to
the natural end of the content). -/
theorem c7_duration_cap_iff (slk : Int) (item : StreamLineupItem)
    (env : JellyfinCollaborators) (killed : Bool) (fe : Nat) (ps : PlayState)
    (h : jellyfinPlay slk item env killed fe = .ok ps) :
    ps.durationSecondsArg = effectiveStreamDuration slk item ∧
    ((∃ v, ps.durationSecondsArg = some v) ↔
      (∃ sd, item.streamDuration = some sd ∧
        item.start.getD 0 + sd + slk < item.duration)) ∧
    (∀ sd, item.streamDuration = some sd →
      item.start.getD 0 + sd + slk < item.duration →
      ps.durationSecondsArg = some (sd / 1000)) := by
  obtain ⟨-, -, -, -, stream, hgs, hps⟩ := jellyfinPlay_ok_inv _ _ _ _ _ _ h
  subst hps
  refine ⟨rfl, ?_, ?_⟩
  · simpa using effectiveStreamDuration_isSome_iff slk item
  · intro sd hsd hc
    simpa using effectiveStreamDuration_eq_some slk item sd hsd hc

/-- A content item 100 s long whose stream duration is capped at 10 s. -/
def c7Item : StreamLineupItem :=
  { type := .program, duration := 100000, start := some 0,
    streamDuration := some 10000 }

/-- The negotiated stream of the witnesses: a URL with empty details. -/
def c8Stream : JellyfinStream := { streamUrl := "u", streamDetails := some {} }

/-- Healthy collaborators: server found, stream negotiated with empty
details, spawn succeeds, play-status reporting off. -/
def healthyEnv : JellyfinCollaborators :=
  { serverFound := true, getStream := some c8Stream,
    spawnOk := true, updatePlayStatus := false }

/-- The play state reached through `healthyEnv` with `c7Item`. -/
def c7PlayState : PlayState :=
  { emitterId := 0, sink := [.pipeMain false], seekSeconds := 0,
    durationSecondsArg := some 10, streamDetails := some { duration := some 10000 },
    taskStarted := false }

/-- The same play state with emitter id `7`, for the C8 witness. -/
def c8PlayState : PlayState :=
  { emitterId := 7, sink := [.pipeMain false], seekSeconds := 0,
    durationSecondsArg := some 10, streamDetails := some { duration := some 10000 },
    taskStarted := false }

/-- C7 witness: with `SLACK = 9999`, `0 + 10000 + 9999 < 100000`, so the cap
`10000 / 1000 = 10` seconds is passed. -/
theorem c7_witness_capped_item :
    (jellyfinPlay 9999 c7Item healthyEnv false 0 = .ok c7PlayState) ∧
    (c7PlayState.durationSecondsArg = effectiveStreamDuration 9999 c7Item ∧
      ((∃ v, c7PlayState.durationSecondsArg = some v) ↔
        (∃ sd, c7Item.streamDuration = some sd ∧
          c7Item.start.getD 0 + sd + 9999 < c7Item.duration)) ∧
      (∀ sd, c7Item.streamDuration = some sd →
        c7Item.start.getD 0 + sd + 9999 < c7Item.duration →
        c7PlayState.durationSecondsArg = some (sd / 1000))) ∧
    effectiveStreamDuration 9999 c7Item = some 10 :=
  ⟨by decide,
    c7_duration_cap_iff 9999 c7Item healthyEnv false 0 c7PlayState (by decide),
    by decide⟩

/-- The content item of the C6 scenario. -/
def c6Item : StreamLineupItem :=
  { type := .program, duration := 1800000, start := some 0,
    streamDuration := some 1800000 }

/-- Collaborators whose stream negotiation fails. -/
def c6Env : JellyfinCollaborators :=
  { serverFound := true, getStream := none, spawnOk := true,
    updatePlayStatus := false }

/-- C6 counterexample: when the stream negotiator returns no stream,
`JellyfinPlayer.play` logs and returns `undefined` (lines 92-96): nothing at
all is piped into the output sink — in particular no error-slate stream is
substituted — yet `startStream` still reports success because `play` returned
without throwing.  The claim's recovery-by-error-slate assertion is therefore
false for negotiation failures. -/
theorem c6_counterexample_no_slate_on_negotiation_failure :
    jellyfinPlay 9999 c6Item c6Env false 0 = .noEmitter [] ∧
    sinkOf (jellyfinPlay 9999 c6Item c6Env false 0) = [] ∧
    (¬ ∃ d, SinkEvent.pipeErrorSlate d ∈ sinkOf (jellyfinPlay 9999 c6Item c6Env false 0)) ∧
    startStreamOutcome (jellyfinPlay 9999 c6Item c6Env false 0) = true := by
  refine ⟨by decide, by decide, ?_, by decide⟩
  rintro ⟨d, hd⟩
  have hempty : sinkOf (jellyfinPlay 9999 c6Item c6Env false 0) = [] := by decide
  rw [hempty] at hd
  exact absurd hd (by simp)

/-- C6 (amended): for every content-backed item with a reachable server, when
the per-backend stream negotiator returns no stream, `JellyfinPlayer.play`
returns no emitter and pipes nothing into the sink (no error-slate stream is
substituted at this stage — the slate substitution of lines 156-188 only
applies to subprocess errors after a stream has started), and `startStream`
still returns a success result to the caller, because `play` returned without
throwing rather than because a stream was produced. -/
theorem c6_negotiation_failure_no_emitter_still_success
    (slk : Int) (item : StreamLineupItem) (env : JellyfinCollaborators)
    (killed : Bool) (fe : Nat)
    (hc : isContentBackedLineupIteam item = true)
    (hs : env.serverFound = true)
    (hg : env.getStream = none) :
    jellyfinPlay slk item env killed fe = .noEmitter [] ∧
    sinkOf (jellyfinPlay slk item env killed fe) = [] ∧
    startStreamOutcome (jellyfinPlay slk item env killed fe) = true := by
  have hplay : jellyfinPlay slk item env killed fe = .noEmitter [] := by
    unfold jellyfinPlay
    rw [if_neg (by simp [hc]), if_neg (by simp [hs]), hg]
  exact ⟨hplay, by rw [hplay]; rfl, by rw [hplay]; rfl⟩

/-- C6 witness for the amended statement, at the concrete inputs of the
counterexample. -/
theorem c6_witness_negotiation_failure :
    (isContentBackedLineupIteam c6Item = true ∧ c6Env.serverFound = true ∧
      c6Env.getStream = none) ∧
    (jellyfinPlay 9999 c6Item c6Env false 0 = .noEmitter [] ∧
      sinkOf (jellyfinPlay 9999 c6Item c6Env false 0) = [] ∧
      startStreamOutcome (jellyfinPlay 9999 c6Item c6Env false 0) = true) :=
  ⟨⟨by decide, rfl, rfl⟩,
    c6_negotiation_failure_no_emitter_still_success 9999 c6Item c6Env false 0
      (by decide) rfl rfl⟩

/-- C8: on a subprocess `error` event, the handler installed by `play`
unpipes the failed process from the sink and removes its listeners, pipes a
synthetic error-slate process into the same sink whose duration is the
minimum of the original stream's remaining duration — `streamDetails.duration`,
which line 104 set to the item's stream duration, defaulting to `30000` ms
when unknown — and the fixed ceiling `60000` ms, and keeps forwarding
lifecycle events through the same emitter object `play` returned, which is
unchanged across the substitution. -/
theorem c8_error_slate_substitution (slk : Int) (item : StreamLineupItem)
    (env : JellyfinCollaborators) (killed : Bool) (fe : Nat) (ps : PlayState)
    (stream : JellyfinStream)
    (h : jellyfinPlay slk item env killed fe = .ok ps)
    (hgs : env.getStream = some stream) :
    (onFfmpegError ps).emitterId = ps.emitterId ∧
    ps.emitterId = fe ∧
    (onFfmpegError ps).slateDurationMs =
      min ((if stream.streamDetails.isSome then item.streamDuration
            else none).getD 30000) 60000 ∧
    (onFfmpegError ps).slateDurationMs ≤ 60000 ∧
    (onFfmpegError ps).sink =
      ps.sink ++ [.unpipeMain, .pipeErrorSlate (onFfmpegError ps).slateDurationMs] ∧
    (onFfmpegError ps).oldListenersRemoved = true := by
  obtain ⟨-, -, -, -, stream2, hgs2, hps⟩ := jellyfinPlay_ok_inv _ _ _ _ _ _ h
  rw [hgs] at hgs2
  injection hgs2 with he
  subst he
  subst hps
  refine ⟨rfl, rfl, ?_, min_le_right _ _, rfl, rfl⟩
  cases hsd : stream.streamDetails with
  | none => simp [onFfmpegError, hsd]
  | some sd0 => simp [onFfmpegError, hsd]

/-- C8 witness: a play state reached through `healthyEnv` with the 100-second
item; the slate duration is `min(10000, 60000) = 10000` ms, and the emitter
is unchanged. -/
theorem c8_witness_slate_duration :
    (jellyfinPlay 9999 c7Item healthyEnv false 7 = .ok c8PlayState ∧
      healthyEnv.getStream = some c8Stream) ∧
    ((onFfmpegError c8PlayState).emitterId = c8PlayState.emitterId ∧
      c8PlayState.emitterId = 7 ∧
      (onFfmpegError c8PlayState).slateDurationMs =
        min ((if c8Stream.streamDetails.isSome then c7Item.streamDuration
              else none).getD 30000) 60000 ∧
      (onFfmpegError c8PlayState).slateDurationMs ≤ 60000 ∧
      (onFfmpegError c8PlayState).sink =
        c8PlayState.sink ++ [.unpipeMain,
          .pipeErrorSlate (onFfmpegError c8PlayState).slateDurationMs] ∧
      (onFfmpegError c8PlayState).oldListenersRemoved = true) :=
  ⟨⟨by decide, rfl⟩,
    c8_error_slate_substitution 9999 c7Item healthyEnv false 7 c8PlayState c8Stream
      (by decide) rfl⟩

/-! ## `JellyfinPlayer.cleanUp` and the `stop` closure of `startStream` -/

/-- The lifecycle state of one `JellyfinPlayer`: the `killed` flag, the ffmpeg
and play-status-task handles, and counters of how many `kill()` and
`task.stop()` calls have been made (to state idempotence). -/
structure JellyfinPlayerState where
  killed : Bool
  ffmpeg : Option Nat
  updatePlayStatusTask : Option Nat
  killCount : Nat
  taskStopCount : Nat
  deriving DecidableEq, Repr

/-- `JellyfinPlayer.cleanUp` (lines 34-45): set the killed flag, call
`task.stop()` whenever the task handle is defined (the handle is never
cleared), and, when the ffmpeg handle is non-null, kill it and clear it. -/
def cleanUp (p : JellyfinPlayerState) : JellyfinPlayerState :=
  let p1 := { p with killed := true,
                     taskStopCount := p.taskStopCount +
                       (if p.updatePlayStatusTask.isSome then 1 else 0) }
  match p1.ffmpeg with
  | some _ => { p1 with ffmpeg := none, killCount := p1.killCount + 1 }
  | none => p1

/-- The state owned by the `stop` closure of `startStream` (lines 319-329). -/
structure StopState where
  stopped : Bool
  player : JellyfinPlayerState
  streamEnded : Bool
  deriving DecidableEq, Repr

/-- The `stop` closure: guarded by the `stopped` flag, it calls
`player.cleanUp()` and ends the output stream at most once. -/
def stopOnce (s : StopState) : StopState :=
  if s.stopped then s
  else { stopped := true, player := cleanUp s.player, streamEnded := true }

/-- A player with a live subprocess and a started play-status task. -/
def c9Player : JellyfinPlayerState :=
  { killed := false, ffmpeg := some 0, updatePlayStatusTask := some 0,
    killCount := 0, taskStopCount := 0 }

/-- C9 counterexample: calling `cleanUp` twice on a player with a started
play-status task performs no second `kill()` (the ffmpeg handle is cleared),
but it does call `task.stop()` a second time, because the task handle is
never cleared; so the claim "no duplicate stop() call on the periodic
play-status task" is false. -/
theorem c9_counterexample_duplicate_task_stop :
    (cleanUp (cleanUp c9Player)).killCount = 1 ∧
    (cleanUp c9Player).taskStopCount = 1 ∧
    (cleanUp (cleanUp c9Player)).taskStopCount = 2 ∧
    ¬ (cleanUp (cleanUp c9Player)).taskStopCount =
        (cleanUp c9Player).taskStopCount := by
  decide

/-- C9 (amended): a second `cleanUp()` on the same player performs no second
subprocess kill attempt (the ffmpeg handle is nulled by the first call), and
`stop()` at the `startStream` level is fully idempotent through its `stopped`
flag; however a second direct `cleanUp()` does invoke `task.stop()` on the
play-status task again whenever the task was started, because the task handle
is not cleared — only the task's own stop idempotence prevents a duplicate
stop effect. -/
theorem c9_cleanup_idempotence (p : JellyfinPlayerState) (s : StopState) :
    (cleanUp (cleanUp p)).killCount = (cleanUp p).killCount ∧
    (cleanUp (cleanUp p)).ffmpeg = none ∧
    (cleanUp (cleanUp p)).taskStopCount = (cleanUp p).taskStopCount +
      (if p.updatePlayStatusTask.isSome then 1 else 0) ∧
    stopOnce (stopOnce s) = stopOnce s := by
  refine ⟨?_, ?_, ?_, ?_⟩
  · cases hf : p.ffmpeg <;> simp [cleanUp, hf]
  · cases hf : p.ffmpeg <;> simp [cleanUp, hf]
  · cases hf : p.ffmpeg <;> cases ht : p.updatePlayStatusTask <;>
      simp [cleanUp, hf, ht]
  · unfold stopOnce
    by_cases hs : s.stopped
    · simp [hs]
    · simp [hs]

/-! ## The redirect walk (`startStream`, lines 108-179)

The `while` loop follows `redirect` programs: it pushes the current channel
onto `redirectChannels` and the slot's remaining time onto `upperBounds`;
if the target channel is already in `redirectChannels` it records a
cycle-error item for the *current* channel in the Playback Cache (and keeps
going); it loads the target channel (resolving a synthetic error program when
the target does not exist), short-circuits on a Playback Cache hit for the
target, and otherwise resolves the target's current program and loops.  The
loop is embedded as a step function `walkStep` plus a fuel-indexed driver
`walk`; the code has no fuel, and the C2 theorem shows a fuel of
`3 * (number of channels) + 1` always suffices. -/

/-- The channel environment at the fixed request timestamp: for each existing
channel id, the result of `channelDB.loadChannelAndLineup` composed with
`calculator.getCurrentProgramAndTimeElapsed` (the calculator is not under
`src/`; per the spec the resolver is a deterministic function of channel,
lineup and timestamp).  The outer `Option` is channel existence, the inner
one the calculator's `Maybe` result. -/
abbrev ChannelEnv := List (String × Option ResolvedProgram)

/-- Lookup of a channel id in the environment. -/
def resolveChannel : ChannelEnv → String → Option (Option ResolvedProgram)
  | [], _ => none
  | (k, v) :: rest, channelId =>
    if k = channelId then some v else resolveChannel rest channelId

/-- The set of existing channel ids. -/
def chanKeys (env : ChannelEnv) : Finset String := (env.map Prod.fst).toFinset

theorem resolveChannel_none_iff (env : ChannelEnv) (channelId : String) :
    resolveChannel env channelId = none ↔ channelId ∉ chanKeys env := by
  induction env with
  | nil => simp [resolveChannel, chanKeys]
  | cons p rest ih =>
    rcases p with ⟨k, v⟩
    by_cases h : k = channelId
    · subst h; simp [resolveChannel, chanKeys]
    · simpa [resolveChannel, chanKeys, h, Ne.symm h] using ih

theorem resolveChannel_mem (env : ChannelEnv) (channelId : String)
    (r : Option ResolvedProgram) (h : resolveChannel env channelId = some r) :
    channelId ∈ chanKeys env := by
  by_contra hc
  rw [(resolveChannel_none_iff env channelId).mpr hc] at h
  exact absurd h (by simp)

theorem resolveChannel_isSome (env : ChannelEnv) (channelId : String)
    (h : channelId ∈ chanKeys env) :
    ∃ r, resolveChannel env channelId = some r := by
  cases hr : resolveChannel env channelId with
  | none => exact absurd ((resolveChannel_none_iff env channelId).mp hr) (by simpa using h)
  | some r => exact ⟨r, rfl⟩

/-- The message of the cycle-error item recorded at lines 132-141. -/
def cycleMsg (visited : List String) : String :=
  "Recursive channel redirect found: " ++ String.intercalate ", " visited

/-- The cycle-error item recorded at lines 132-141. -/
def cycleErrorItem (visited : List String) : StreamLineupItem :=
  { type := .error, title := some "Error", error := some (cycleMsg visited),
    duration := 60000, start := some 0 }

/-- The message of the error program built at lines 148-160. -/
def invalidRedirectMsg : String :=
  "Invalid redirect to a channel that doesn\x27t exist"

/-- The error program built at lines 148-160 when a redirect target does not
exist: a 60-second offline item overridden to an error. -/
def invalidRedirectProgram : ResolvedProgram :=
  { program := { createOfflineStreamLineupIteam 60000 with
      type := .error, error := some invalidRedirectMsg },
    timeElapsed := 0, programIndex := -1 }

/-- The mutable state of the walk loop: `channelContext`, `redirectChannels`,
`upperBounds`, the Playback Cache as updated so far, and a flag recording
whether a cycle was ever detected at line 128. -/
structure WalkState where
  ctx : String
  visited : List String
  bounds : List Int
  cache : PlaybackCache
  sawCycle : Bool
  deriving DecidableEq, Repr

/-- How the loop ended: `fromCache` is the `break` at line 171 with the item
found in the Playback Cache; `direct` is the loop condition failing, leaving
`currentProgram` (possibly absent) to be turned into a lineup item. -/
inductive WalkOut where
  | fromCache (item : StreamLineupItem) (st : WalkState)
  | direct (cp : Option ResolvedProgram) (st : WalkState)
  deriving DecidableEq, Repr

/-- One iteration's result: finished, or continue with the target's resolved
program. -/
inductive StepOut where
  | done (out : WalkOut)
  | next (cp : Option ResolvedProgram) (st : WalkState)
  deriving DecidableEq, Repr

/-- The `type === 'redirect'` test of the loop condition, with the target. -/
def redirectTarget : LineupItemType → Option String
  | .redirect channel => some channel
  | _ => none

/-- `redirectChannels` after the push at line 123. -/
def stepVisited (st : WalkState) : List String := st.visited ++ [st.ctx]

/-- `upperBounds` after the push at lines 124-126. -/
def stepBounds (c : ResolvedProgram) (st : WalkState) : List Int :=
  st.bounds ++ [c.program.duration - c.timeElapsed]

/-- The Playback Cache after the cycle check at lines 128-142: on detection
the cycle-error item is recorded for the current channel. -/
def stepCache (st : WalkState) (target : String) : PlaybackCache :=
  if target ∈ stepVisited st then
    recordPlayback st.cache st.ctx (cycleErrorItem (stepVisited st))
  else st.cache

/-- Whether a cycle has been detected at this or an earlier iteration. -/
def stepSaw (st : WalkState) (target : String) : Bool :=
  st.sawCycle || decide (target ∈ stepVisited st)

/-- The walk state after moving to the loaded target channel (line 163). -/
def stepState (c : ResolvedProgram) (st : WalkState) (target : String) : WalkState :=
  { ctx := target, visited := stepVisited st, bounds := stepBounds c st,
    cache := stepCache st target, sawCycle := stepSaw st target }

/-- The walk state when the target channel fails to load (lines 148-161): the
pushes and the possible cycle record happened, but `channelContext` is
unchanged. -/
def stepStateKeepCtx (c : ResolvedProgram) (st : WalkState) (target : String) :
    WalkState :=
  { ctx := st.ctx, visited := stepVisited st, bounds := stepBounds c st,
    cache := stepCache st target, sawCycle := stepSaw st target }

/-- One iteration of the `while` loop (lines 119-179). -/
def walkStep (env : ChannelEnv) (cp : Option ResolvedProgram) (st : WalkState) :
    StepOut :=
  match cp with
  | none => .done (.direct none st)
  | some c =>
    match redirectTarget c.program.type with
    | none => .done (.direct (some c) st)
    | some target =>
      match resolveChannel env target with
      | none =>
        .done (.direct (some invalidRedirectProgram) (stepStateKeepCtx c st target))
      | some nextResolved =>
        match getCurrentLineupItem (stepCache st target) target with
        | some item => .done (.fromCache item (stepState c st target))
        | none => .next nextResolved (stepState c st target)

/-- The whole loop, driven by fuel; `none` means the fuel ran out before the
loop finished. -/
def walk (env : ChannelEnv) : Nat → Option ResolvedProgram → WalkState → Option WalkOut
  | 0, cp, st =>
    match walkStep env cp st with
    | .done out => some out
    | .next _ _ => none
  | fuel + 1, cp, st =>
    match walkStep env cp st with
    | .done out => some out
    | .next cp1 st1 => walk env fuel cp1 st1

/-- The termination measure: channels not yet visited plus (twice) channels
not yet recorded in the Playback Cache. -/
def walkMeasure (env : ChannelEnv) (st : WalkState) : Nat :=
  (chanKeys env \ st.visited.toFinset).card +
    2 * (chanKeys env \ cacheKeys st.cache).card

/-- The loop invariant of the walk. -/
structure WalkInv (env : ChannelEnv) (cp : Option ResolvedProgram)
    (st : WalkState) : Prop where
  ctx_mem : st.ctx ∈ chanKeys env
  ctx_not_cached : st.ctx ∉ cacheKeys st.cache
  cache_sub : cacheKeys st.cache ⊆ chanKeys env
  cache_vals : ∀ p ∈ st.cache, ∃ ch, ch ≠ [] ∧ (∃ t, ch ++ t = st.visited) ∧
      p.2 = cycleErrorItem ch
  visited_sub : st.visited.toFinset ⊆ chanKeys env
  visited_closed : ∀ v ∈ st.visited, ∃ c tgt,
      resolveChannel env v = some (some c) ∧
      redirectTarget c.program.type = some tgt ∧
      (tgt ∈ st.visited ∨ tgt = st.ctx)
  cp_res : resolveChannel env st.ctx = some cp
  saw_mem : st.sawCycle = true → st.ctx ∈ st.visited

/-- The state carried out of the walk. -/
def walkOutState : WalkOut → WalkState
  | .fromCache _ st => st
  | .direct _ st => st

/-- Every cache entry is a cycle-error item whose chain is a prefix of the
visited list. -/
def cacheGood (st : WalkState) : Prop :=
  ∀ p ∈ st.cache, ∃ ch, ch ≠ [] ∧ (∃ t, ch ++ t = st.visited) ∧
    p.2 = cycleErrorItem ch

/-- What the C2 claim needs of a finished walk: the cache is well-formed, and
if a cycle was ever detected the walk ended on a cache hit whose item is a
cycle-error item listing a prefix of the visited chain. -/
def walkOutGood (out : WalkOut) : Prop :=
  cacheGood (walkOutState out) ∧
  ((walkOutState out).sawCycle = true →
    ∃ item st ch, out = .fromCache item st ∧ ch ≠ [] ∧
      (∃ t, ch ++ t = st.visited) ∧ item = cycleErrorItem ch)

theorem stepVisited_toFinset (st : WalkState) :
    (stepVisited st).toFinset = st.visited.toFinset ∪ {st.ctx} := by
  simp [stepVisited]

theorem stepVisited_ne_nil (st : WalkState) : stepVisited st ≠ [] := by
  simp [stepVisited]

theorem mem_stepVisited_chan (env : ChannelEnv) (cp : Option ResolvedProgram)
    (st : WalkState) (hinv : WalkInv env cp st) :
    ∀ x ∈ stepVisited st, x ∈ chanKeys env := by
  intro x hx
  rcases List.mem_append.mp hx with hx | hx
  · exact hinv.visited_sub (List.mem_toFinset.mpr hx)
  · have hxe : x = st.ctx := by simpa using hx
    rw [hxe]
    exact hinv.ctx_mem

theorem cacheKeys_stepCache_pos (st : WalkState) (target : String)
    (h : target ∈ stepVisited st) :
    cacheKeys (stepCache st target) = insert st.ctx (cacheKeys st.cache) := by
  rw [stepCache, if_pos h, cacheKeys_record]

theorem cacheKeys_stepCache_neg (st : WalkState) (target : String)
    (h : target ∉ stepVisited st) :
    cacheKeys (stepCache st target) = cacheKeys st.cache := by
  rw [stepCache, if_neg h]

theorem cache_vals_step (st : WalkState) (target : String)
    (hvals : ∀ p ∈ st.cache, ∃ ch, ch ≠ [] ∧ (∃ t, ch ++ t = st.visited) ∧
      p.2 = cycleErrorItem ch) :
    ∀ p ∈ stepCache st target, ∃ ch, ch ≠ [] ∧
      (∃ t, ch ++ t = stepVisited st) ∧ p.2 = cycleErrorItem ch := by
  have hold : ∀ p ∈ st.cache, ∃ ch, ch ≠ [] ∧
      (∃ t, ch ++ t = stepVisited st) ∧ p.2 = cycleErrorItem ch := by
    intro p hp
    obtain ⟨ch, hne, ⟨t, ht⟩, heq⟩ := hvals p hp
    refine ⟨ch, hne, ⟨t ++ [st.ctx], ?_⟩, heq⟩
    rw [← List.append_assoc, ht]
    rfl
  intro p hp
  unfold stepCache at hp
  by_cases hdet : target ∈ stepVisited st
  · rw [if_pos hdet] at hp
    rcases List.mem_cons.mp hp with hp | hp
    · refine ⟨stepVisited st, stepVisited_ne_nil st, ⟨[], List.append_nil _⟩, ?_⟩
      rw [hp]
    · exact hold p hp
  · rw [if_neg hdet] at hp
    exact hold p hp

theorem revisit_detects (env : ChannelEnv) (c : ResolvedProgram) (st : WalkState)
    (hinv : WalkInv env (some c) st) (target : String)
    (hrt : redirectTarget c.program.type = some target)
    (hctx : st.ctx ∈ st.visited) : target ∈ stepVisited st := by
  obtain ⟨c2, tgt, hres, hrt2, hmem⟩ := hinv.visited_closed st.ctx hctx
  have hc : c2 = c := by
    have h1 := hinv.cp_res
    rw [hres] at h1
    injection h1 with h2
    injection h2 with h3
  subst hc
  rw [hrt] at hrt2
  have htgt : tgt = target := by
    injection hrt2 with h4
    exact h4.symm
  subst htgt
  rcases hmem with hm | hm
  · exact List.mem_append.mpr (Or.inl hm)
  · rw [hm]
    exact List.mem_append.mpr (Or.inr (by simp))

theorem stepSaw_mem (env : ChannelEnv) (c : ResolvedProgram) (st : WalkState)
    (target : String) (hinv : WalkInv env (some c) st)
    (hrt : redirectTarget c.program.type = some target)
    (h : stepSaw st target = true) : target ∈ stepVisited st := by
  by_cases hdet : target ∈ stepVisited st
  · exact hdet
  · exfalso
    have hsc : st.sawCycle = true := by
      simpa [stepSaw, hdet] using h
    exact hdet (revisit_detects env c st hinv target hrt (hinv.saw_mem hsc))

theorem walkMeasure_step_lt (env : ChannelEnv) (c : ResolvedProgram)
    (st : WalkState) (target : String) (hinv : WalkInv env (some c) st)
    (hrt : redirectTarget c.program.type = some target) :
    walkMeasure env (stepState c st target) < walkMeasure env st := by
  have hctx : st.ctx ∈ chanKeys env := hinv.ctx_mem
  have h1le : (chanKeys env \ (stepVisited st).toFinset).card ≤
      (chanKeys env \ st.visited.toFinset).card := by
    apply Finset.card_le_card
    apply Finset.sdiff_subset_sdiff (Finset.Subset.refl _)
    rw [stepVisited_toFinset]
    exact Finset.subset_union_left
  by_cases hdet : target ∈ stepVisited st
  · have hck := cacheKeys_stepCache_pos st target hdet
    have hsub : chanKeys env \ insert st.ctx (cacheKeys st.cache) ⊆
        chanKeys env \ cacheKeys st.cache :=
      Finset.sdiff_subset_sdiff (Finset.Subset.refl _) (Finset.subset_insert _ _)
    have hmem2 : st.ctx ∈ chanKeys env \ cacheKeys st.cache :=
      Finset.mem_sdiff.mpr ⟨hctx, hinv.ctx_not_cached⟩
    have hnot2 : st.ctx ∉ chanKeys env \ insert st.ctx (cacheKeys st.cache) := by
      simp
    have h2lt : (chanKeys env \ insert st.ctx (cacheKeys st.cache)).card <
        (chanKeys env \ cacheKeys st.cache).card :=
      Finset.card_lt_card
        ((Finset.ssubset_iff_of_subset hsub).mpr ⟨st.ctx, hmem2, hnot2⟩)
    simp only [walkMeasure, stepState]
    rw [hck]
    omega
  · have hfresh : st.ctx ∉ st.visited := fun hmem =>
      hdet (revisit_detects env c st hinv target hrt hmem)
    have hck := cacheKeys_stepCache_neg st target hdet
    have hsub : chanKeys env \ (stepVisited st).toFinset ⊆
        chanKeys env \ st.visited.toFinset := by
      apply Finset.sdiff_subset_sdiff (Finset.Subset.refl _)
      rw [stepVisited_toFinset]
      exact Finset.subset_union_left
    have hmem1 : st.ctx ∈ chanKeys env \ st.visited.toFinset :=
      Finset.mem_sdiff.mpr ⟨hctx, by simpa using hfresh⟩
    have hnot1 : st.ctx ∉ chanKeys env \ (stepVisited st).toFinset := by
      rw [stepVisited_toFinset]
      simp
    have h1lt : (chanKeys env \ (stepVisited st).toFinset).card <
        (chanKeys env \ st.visited.toFinset).card :=
      Finset.card_lt_card
        ((Finset.ssubset_iff_of_subset hsub).mpr ⟨st.ctx, hmem1, hnot1⟩)
    simp only [walkMeasure, stepState]
    rw [hck]
    omega

theorem saw_direct_absurd (env : ChannelEnv) (cp : Option ResolvedProgram)
    (st : WalkState) (hinv : WalkInv env cp st)
    (hsaw : st.sawCycle = true) :
    ∃ c tgt, cp = some c ∧ redirectTarget c.program.type = some tgt := by
  obtain ⟨c2, tgt, hres, hrt2, -⟩ := hinv.visited_closed st.ctx (hinv.saw_mem hsaw)
  have h1 := hinv.cp_res
  rw [hres] at h1
  injection h1 with h2
  exact ⟨c2, tgt, h2.symm, hrt2⟩

theorem walkStep_done_good (env : ChannelEnv) (cp : Option ResolvedProgram)
    (st : WalkState) (out : WalkOut) (hinv : WalkInv env cp st)
    (h : walkStep env cp st = .done out) : walkOutGood out := by
  cases cp with
  | none =>
    simp only [walkStep] at h
    injection h with hout
    subst hout
    refine ⟨hinv.cache_vals, ?_⟩
    intro hsaw
    obtain ⟨c, tgt, hcp, -⟩ := saw_direct_absurd env none st hinv hsaw
    exact absurd hcp (by simp)
  | some c =>
    cases hrt : redirectTarget c.program.type with
    | none =>
      simp only [walkStep, hrt] at h
      injection h with hout
      subst hout
      refine ⟨hinv.cache_vals, ?_⟩
      intro hsaw
      obtain ⟨c2, tgt, hcp, hrt2⟩ := saw_direct_absurd env (some c) st hinv hsaw
      have hc : c = c2 := by injection hcp
      rw [← hc, hrt] at hrt2
      exact absurd hrt2 (by simp)
    | some target =>
      cases hres : resolveChannel env target with
      | none =>
        simp only [walkStep, hrt, hres] at h
        injection h with hout
        subst hout
        refine ⟨?_, ?_⟩
        · exact cache_vals_step st target hinv.cache_vals
        · intro hsaw
          exfalso
          have hmem : target ∈ stepVisited st :=
            stepSaw_mem env c st target hinv hrt hsaw
          have hchan : target ∈ chanKeys env :=
            mem_stepVisited_chan env (some c) st hinv target hmem
          obtain ⟨r, hr⟩ := resolveChannel_isSome env target hchan
          rw [hres] at hr
          exact absurd hr (by simp)
      | some nextResolved =>
        cases hget : getCurrentLineupItem (stepCache st target) target with
        | some item =>
          simp only [walkStep, hrt, hres, hget] at h
          injection h with hout
          subst hout
          refine ⟨?_, ?_⟩
          · exact cache_vals_step st target hinv.cache_vals
          · intro _
            have hp := getCurrentLineupItem_mem _ _ _ hget
            obtain ⟨ch, hne, hpre, heq⟩ :=
              cache_vals_step st target hinv.cache_vals _ hp
            exact ⟨item, stepState c st target, ch, rfl, hne, hpre, heq⟩
        | none =>
          simp only [walkStep, hrt, hres, hget] at h
          exact absurd h (by simp)

theorem walkStep_next_inv (env : ChannelEnv) (cp cp1 : Option ResolvedProgram)
    (st st1 : WalkState) (hinv : WalkInv env cp st)
    (h : walkStep env cp st = .next cp1 st1) :
    WalkInv env cp1 st1 ∧ walkMeasure env st1 < walkMeasure env st := by
  cases cp with
  | none => simp [walkStep] at h
  | some c =>
    cases hrt : redirectTarget c.program.type with
    | none => simp [walkStep, hrt] at h
    | some target =>
      cases hres : resolveChannel env target with
      | none => simp [walkStep, hrt, hres] at h
      | some nextResolved =>
        cases hget : getCurrentLineupItem (stepCache st target) target with
        | some item => simp [walkStep, hrt, hres, hget] at h
        | none =>
          simp only [walkStep, hrt, hres, hget] at h
          injection h with h1 h2
          subst h1
          subst h2
          constructor
          · refine ⟨?_, ?_, ?_, ?_, ?_, ?_, ?_, ?_⟩
            · exact resolveChannel_mem env target _ hres
            · exact (getCurrentLineupItem_none_iff _ _).mp hget
            · intro x hx
              simp only [stepState] at hx
              by_cases hdet : target ∈ stepVisited st
              · rw [cacheKeys_stepCache_pos st target hdet] at hx
                rcases Finset.mem_insert.mp hx with hx | hx
                · rw [hx]; exact hinv.ctx_mem
                · exact hinv.cache_sub hx
              · rw [cacheKeys_stepCache_neg st target hdet] at hx
                exact hinv.cache_sub hx
            · exact cache_vals_step st target hinv.cache_vals
            · intro x hx
              simp only [stepState] at hx
              rw [stepVisited_toFinset] at hx
              rcases Finset.mem_union.mp hx with hx | hx
              · exact hinv.visited_sub hx
              · have hxe : x = st.ctx := by simpa using hx
                rw [hxe]
                exact hinv.ctx_mem
            · intro v hv
              simp only [stepState] at hv ⊢
              rcases List.mem_append.mp hv with hv | hv
              · obtain ⟨c2, tgt, hres2, hrt2, hmem2⟩ := hinv.visited_closed v hv
                refine ⟨c2, tgt, hres2, hrt2, Or.inl ?_⟩
                rcases hmem2 with hm | hm
                · exact List.mem_append.mpr (Or.inl hm)
                · rw [hm]
                  exact List.mem_append.mpr (Or.inr (by simp))
              · have hve : v = st.ctx := by simpa using hv
                refine ⟨c, target, ?_, hrt, Or.inr rfl⟩
                rw [hve]
                exact hinv.cp_res
            · exact hres
            · intro hsaw
              simp only [stepState] at hsaw ⊢
              exact stepSaw_mem env c st target hinv hrt hsaw
          · exact walkMeasure_step_lt env c st target hinv hrt

theorem walk_spec (env : ChannelEnv) :
    ∀ (fuel : Nat) (cp : Option ResolvedProgram) (st : WalkState),
      WalkInv env cp st → walkMeasure env st < fuel →
      ∃ out, walk env fuel cp st = some out ∧ walkOutGood out := by
  intro fuel
  induction fuel with
  | zero => intro cp st _ hm; exact absurd hm (by omega)
  | succ f ih =>
    intro cp st hinv hm
    cases hstep : walkStep env cp st with
    | done out =>
      refine ⟨out, ?_, walkStep_done_good env cp st out hinv hstep⟩
      simp only [walk, hstep]
    | next cp1 st1 =>
      obtain ⟨hinv1, hlt⟩ := walkStep_next_inv env cp cp1 st st1 hinv hstep
      obtain ⟨out, hw, hg⟩ := ih cp1 st1 hinv1 (by omega)
      refine ⟨out, ?_, hg⟩
      simp only [walk, hstep]
      exact hw

theorem walk_mono (env : ChannelEnv) :
    ∀ (f g : Nat) (cp : Option ResolvedProgram) (st : WalkState) (out : WalkOut),
      f ≤ g → walk env f cp st = some out → walk env g cp st = some out := by
  intro f
  induction f with
  | zero =>
    intro g cp st out _ h
    cases hstep : walkStep env cp st with
    | done o =>
      simp only [walk, hstep] at h
      cases g with
      | zero => simp only [walk, hstep]; exact h
      | succ g1 => simp only [walk, hstep]; exact h
    | next cp1 st1 => simp [walk, hstep] at h
  | succ f ihf =>
    intro g cp st out hle h
    cases hstep : walkStep env cp st with
    | done o =>
      simp only [walk, hstep] at h
      cases g with
      | zero => simp only [walk, hstep]; exact h
      | succ g1 => simp only [walk, hstep]; exact h
    | next cp1 st1 =>
      obtain ⟨g1, rfl⟩ : ∃ g1, g = g1 + 1 := ⟨g - 1, by omega⟩
      simp only [walk, hstep] at h
      simp only [walk, hstep]
      exact ihf g1 cp1 st1 out (by omega) h

/-! ## Resolution end to end (`startStream`, lines 108-298, without throttle)

`runResolution` composes the walk, the offline/skip policy on a direct
resolution, the bounds unwinding and the final Playback Cache record for the
originating channel.  The skip-ahead recursion and the throttle gate are
modelled separately (`skipRun`, `applyThrottle`). -/

/-- The decision `startStream` reaches by line 298 (before playing):
a playable item together with the updated Playback Cache, a skip-ahead
recursion, or a 500 failure.  Each carries the final walk state. -/
inductive StreamDecision where
  | play (item : StreamLineupItem) (cache : PlaybackCache) (st : WalkState)
  | skipAhead (nextTimestamp : Int) (st : WalkState)
  | failure (httpStatus : Nat) (st : WalkState)
  deriving DecidableEq, Repr

/-- The walk state carried by a decision. -/
def decisionState : StreamDecision → WalkState
  | .play _ _ st => st
  | .skipAhead _ st => st
  | .failure _ st => st

/-- Modelled from the spec: `calculator.createLineupItem` is not under
`src/`; per the spec's data model the Playable Item produced from a Resolved
Program carries the program's kind, title, error payload and duration, with
the start offset given by the elapsed time within the program. -/
def createLineupItem (cp : ResolvedProgram) : StreamLineupItem :=
  { type := cp.program.type, title := cp.program.title, error := cp.program.error,
    duration := cp.program.duration, start := some cp.timeElapsed }

/-- Lines 235-262 and 285: unwind the bounds over the redirect chain and then
record the final item for the originating channel. -/
def finishPlayback (origin : String) (item : StreamLineupItem)
    (st : WalkState) : StreamDecision :=
  let r := unwindBounds st.visited st.bounds item st.cache
  .play r.1 (recordPlayback r.2 origin r.1) st

/-- Lines 108-289 of `startStream` for one request, starting from an empty
Playback Cache, given the origin channel's resolution `cp0`. -/
def runResolution (env : ChannelEnv) (origin : String)
    (cp0 : Option ResolvedProgram) (lineupLen : Nat) (allowSkip : Bool)
    (slk : Int) (startTimestamp : Int) (fuel : Nat) : Option StreamDecision :=
  match walk env fuel cp0
      { ctx := origin, visited := [], bounds := [], cache := [],
        sawCycle := false } with
  | none => none
  | some (.fromCache item st) => some (finishPlayback origin item st)
  | some (.direct none st) => some (.failure 500 st)
  | some (.direct (some c) st) =>
    match applyOfflinePolicy lineupLen allowSkip slk c with
    | .skip dt => some (.skipAhead (startTimestamp + dt + 1) st)
    | .longOffline c1 => some (finishPlayback origin (createLineupItem c1) st)
    | .keep c1 => some (finishPlayback origin (createLineupItem c1) st)

theorem unwindBounds_preserves (rcs : List String) (ubs : List Int)
    (item : StreamLineupItem) (cache : PlaybackCache) :
    (unwindBounds rcs ubs item cache).1.type = item.type ∧
    (unwindBounds rcs ubs item cache).1.error = item.error :=
  unwindGo_preserves _ rcs ubs rcs.length maxSafeInteger item cache

/-- C2: for every redirect walk (from a fresh Playback Cache) in which the
next target channel id already occurs in the visited list, the walk
terminates — any fuel beyond `3 * (number of channels)` yields the same
decision, so the loop never runs indefinitely — and when a cycle was
detected (`sawCycle`), the resolved decision is a playable `error` item whose
message lists the visited channel chain up to the detection, and that item is
recorded in the Playback Cache for the originating channel of the walk. -/
theorem c2_redirect_cycle_terminates_with_error (env : ChannelEnv)
    (origin : String) (cp0 : Option ResolvedProgram) (lineupLen : Nat)
    (allowSkip : Bool) (slk ts : Int)
    (h0 : resolveChannel env origin = some cp0) :
    ∃ dec : StreamDecision,
      (∀ fuel, 3 * (chanKeys env).card < fuel →
        runResolution env origin cp0 lineupLen allowSkip slk ts fuel = some dec) ∧
      ((decisionState dec).sawCycle = true →
        ∃ item cache st chain, dec = .play item cache st ∧
          chain ≠ [] ∧ (∃ t, chain ++ t = st.visited) ∧
          item.type = .error ∧ item.error = some (cycleMsg chain) ∧
          getCurrentLineupItem cache origin = some item) := by
  have hinv : WalkInv env cp0
      { ctx := origin, visited := [], bounds := [], cache := [],
        sawCycle := false } := by
    refine ⟨?_, ?_, ?_, ?_, ?_, ?_, ?_, ?_⟩
    · exact resolveChannel_mem env origin cp0 h0
    · simp [cacheKeys]
    · simp [cacheKeys]
    · intro p hp
      exact absurd hp (by simp)
    · simp
    · intro v hv
      exact absurd hv (by simp)
    · exact h0
    · intro hs
      exact absurd hs (by simp)
  have hm : walkMeasure env
      { ctx := origin, visited := [], bounds := [], cache := [],
        sawCycle := false } = 3 * (chanKeys env).card := by
    simp [walkMeasure, cacheKeys]
    ring
  obtain ⟨out, hw, hg⟩ := walk_spec env (3 * (chanKeys env).card + 1) cp0 _ hinv
    (by omega)
  have hrun : ∀ fuel, 3 * (chanKeys env).card < fuel →
      walk env fuel cp0
        { ctx := origin, visited := [], bounds := [], cache := [],
          sawCycle := false } = some out := by
    intro fuel hf
    exact walk_mono env (3 * (chanKeys env).card + 1) fuel cp0 _ out (by omega) hw
  cases out with
  | fromCache item st =>
    refine ⟨finishPlayback origin item st, ?_, ?_⟩
    · intro fuel hf
      simp only [runResolution, hrun fuel hf]
    · intro hsaw
      have hsaw2 : st.sawCycle = true := hsaw
      obtain ⟨item2, st2, ch, heq, hne, hpre, hitem⟩ := hg.2 hsaw2
      injection heq with h1 h2
      subst h1
      subst h2
      refine ⟨(unwindBounds st.visited st.bounds item st.cache).1,
        recordPlayback (unwindBounds st.visited st.bounds item st.cache).2
          origin (unwindBounds st.visited st.bounds item st.cache).1,
        st, ch, rfl, hne, hpre, ?_, ?_, ?_⟩
      · rw [(unwindBounds_preserves st.visited st.bounds item st.cache).1, hitem]
        rfl
      · rw [(unwindBounds_preserves st.visited st.bounds item st.cache).2, hitem]
        rfl
      · exact getCurrentLineupItem_record _ _ _
  | direct cpD st =>
    have hsawf : st.sawCycle = false := by
      by_contra hsc
      have hst : st.sawCycle = true := by simpa using hsc
      obtain ⟨item2, st2, ch, heq, -⟩ := hg.2 hst
      exact absurd heq (by simp)
    cases cpD with
    | none =>
      refine ⟨.failure 500 st, ?_, ?_⟩
      · intro fuel hf
        simp only [runResolution, hrun fuel hf]
      · intro hsaw
        exact absurd hsaw (by simp [decisionState, hsawf])
    | some c =>
      cases hpol : applyOfflinePolicy lineupLen allowSkip slk c with
      | skip dt =>
        refine ⟨.skipAhead (ts + dt + 1) st, ?_, ?_⟩
        · intro fuel hf
          simp only [runResolution, hrun fuel hf, hpol]
        · intro hsaw
          exact absurd hsaw (by simp [decisionState, hsawf])
      | longOffline c1 =>
        refine ⟨finishPlayback origin (createLineupItem c1) st, ?_, ?_⟩
        · intro fuel hf
          simp only [runResolution, hrun fuel hf, hpol]
        · intro hsaw
          exact absurd hsaw (by simp [decisionState, finishPlayback, hsawf])
      | keep c1 =>
        refine ⟨finishPlayback origin (createLineupItem c1) st, ?_, ?_⟩
        · intro fuel hf
          simp only [runResolution, hrun fuel hf, hpol]
        · intro hsaw
          exact absurd hsaw (by simp [decisionState, finishPlayback, hsawf])

/-- The channel of the C2 witness: channel `A` whose current slot is a
30-minute redirect to channel `A` itself, 10 minutes in. -/
def cpA : ResolvedProgram :=
  { program := { type := .redirect "A", duration := 1800000, start := some 0 },
    timeElapsed := 600000, programIndex := 0 }

/-- The one-channel environment of the C2 witness. -/
def envA : ChannelEnv := [("A", some cpA)]

/-- The final item of the concrete `A → A` run: the cycle-error item listing
the chain `A`, bounded to the 20 remaining minutes of the redirect slot. -/
def c2FinalItem : StreamLineupItem :=
  { type := .error, title := some "Error", error := some (cycleMsg ["A"]),
    duration := 60000, start := some 0, streamDuration := some 1200000 }

/-- The walk state after the concrete `A → A` run. -/
def c2FinalState : WalkState :=
  { ctx := "A", visited := ["A"], bounds := [1200000],
    cache := [("A", cycleErrorItem ["A"])], sawCycle := true }

/-- The Playback Cache after the concrete `A → A` run: the unwind record and
the final record for the originating channel. -/
def c2FinalCache : PlaybackCache :=
  [("A", c2FinalItem), ("A", c2FinalItem), ("A", cycleErrorItem ["A"])]

/-- C2 witness: the scenario "channel A redirects to channel A".  The walk
terminates, detects the cycle, and the resolved decision is the `error` item
whose message lists the cycle `A`, recorded for channel `A`. -/
theorem c2_witness_self_redirect :
    (resolveChannel envA "A" = some (some cpA)) ∧
    (∃ dec : StreamDecision,
      (∀ fuel, 3 * (chanKeys envA).card < fuel →
        runResolution envA "A" (some cpA) 1 false 9999 0 fuel = some dec) ∧
      ((decisionState dec).sawCycle = true →
        ∃ item cache st chain, dec = .play item cache st ∧
          chain ≠ [] ∧ (∃ t, chain ++ t = st.visited) ∧
          item.type = .error ∧ item.error = some (cycleMsg chain) ∧
          getCurrentLineupItem cache "A" = some item)) ∧
    runResolution envA "A" (some cpA) 1 false 9999 0 4 =
      some (.play c2FinalItem c2FinalCache c2FinalState) ∧
    c2FinalItem.error = some "Recursive channel redirect found: A" :=
  ⟨rfl,
    c2_redirect_cycle_terminates_with_error envA "A" (some cpA) 1 false 9999 0 rfl,
    by decide, by decide⟩

end Tunarr
